import Mathlib

/-!
Verification of the `ordered_float` crate (`src/lib.rs`).

The crate wraps IEEE-754 floats (`f32`/`f64`) in two types: `OrderedFloat<T>`
(total order with NaN greatest and NaN = NaN) and `NotNaN<T>` (a wrapper whose
documented invariant is that it never holds NaN, with guarded arithmetic).

Shallow embedding choices:

* A 64-bit float is modelled by its bit pattern, split into the IEEE fields:
  a sign bit, an 11-bit exponent field and a 52-bit mantissa field
  (`F64.wf` states the field bounds).  A 32-bit float is modelled likewise
  (`F32`, 8-bit exponent field, 23-bit mantissa field).
* Rust's `f64::partial_cmp` / `==` compare non-NaN floats by numeric value and
  are undefined (None / false) when an operand is NaN.  For non-NaN bit
  patterns, ordering by numeric value coincides with ordering by the
  sign-magnitude integer key `F64.orderKey` (the magnitude is the non-sign
  bits read as an integer, negated when the sign bit is set); in particular
  `+0.0` and `-0.0` both get key 0.  `F64.cmpOpt` embeds `partial_cmp`
  through that key.
* Float arithmetic (`+`, `-`, `*`, `/`, `%`) is embedded partially: the
  special-value cases fixed exactly by IEEE 754 (a NaN operand, infinities,
  zeros) are given by `fadd`/`fmul`/`fdiv`/`frem`, and the finite-by-finite
  cases whose results depend on rounding are left out (`none`); no claim
  below depends on a rounded result.  NaN results are represented by the
  canonical quiet NaN bit pattern `F64.nanValue` (the pattern of `f64::NAN`).
* Rust panics are embedded as `Except String` with the panic message.
-/

-- masks for the parts of the IEEE 754 float (src/lib.rs lines 21-23)
def SIGN_MASK : Nat := 0x8000000000000000

def EXP_MASK : Nat := 0x7ff0000000000000

def MAN_MASK : Nat := 0x000fffffffffffff

-- canonical raw bit patterns for hashing (src/lib.rs lines 26-27)
def CANONICAL_NAN_BITS : Nat := 0x7ff8000000000000

def CANONICAL_ZERO_BITS : Nat := 0x0

/-- Bit pattern of an `f64`: sign bit, 11-bit exponent field, 52-bit mantissa
field. -/
structure F64 where
  sign : Bool
  exp : Nat
  man : Nat
deriving DecidableEq

/-- Field bounds of a genuine 64-bit pattern. -/
def F64.wf (x : F64) : Prop := x.exp < 2048 ∧ x.man < 4503599627370496

instance (x : F64) : Decidable x.wf := by unfold F64.wf; infer_instance

/-- Embeds `f64::is_nan`: exponent field all ones and nonzero mantissa. -/
def F64.isNaN (x : F64) : Bool := x.exp == 2047 && x.man != 0

/-- An infinity: exponent field all ones, zero mantissa. -/
def F64.isInf (x : F64) : Bool := x.exp == 2047 && x.man == 0

/-- A zero (of either sign): all non-sign bits zero. -/
def F64.isZero (x : F64) : Bool := x.exp == 0 && x.man == 0

/-- The bit pattern of `f64::NAN` (= `T::nan()` of `num_traits`),
`0x7ff8000000000000`: the canonical quiet NaN. -/
def F64.nanValue : F64 := ⟨false, 2047, 2251799813685248⟩

/-- Positive infinity. -/
def F64.posInf : F64 := ⟨false, 2047, 0⟩

/-- Negative infinity. -/
def F64.negInf : F64 := ⟨true, 2047, 0⟩

/-- Sign-magnitude integer key: for non-NaN patterns, ordering by numeric
value equals ordering by this key (both zeros get key 0). -/
def F64.orderKey (x : F64) : Int :=
  if x.sign then -((x.exp * 4503599627370496 + x.man : Nat) : Int)
  else ((x.exp * 4503599627370496 + x.man : Nat) : Int)

/-- Three-way comparison on `Int`, the shape `partial_cmp` produces on the
defined part of the float order. -/
def icmp (x y : Int) : Ordering :=
  if x < y then Ordering.lt else if x = y then Ordering.eq else Ordering.gt

/-- Embeds `f64::partial_cmp`: `None` iff an operand is NaN, otherwise the
numeric comparison (via the order key). -/
def F64.cmpOpt (a b : F64) : Option Ordering :=
  if a.isNaN || b.isNaN then none else some (icmp a.orderKey b.orderKey)

/-- Embeds `f64`'s `==`: false if an operand is NaN, otherwise numeric
equality (via the order key, so `-0.0 == 0.0`). -/
def F64.feq (a b : F64) : Bool :=
  !a.isNaN && !b.isNaN && a.orderKey == b.orderKey

/-- The `OrderedFloat<f64>` wrapper (src/lib.rs line 34): a plain single-field
wrapper, NaN permitted. -/
structure OrderedFloat where
  val : F64
deriving DecidableEq

/-- Embeds `Ord for OrderedFloat<T>::cmp` (src/lib.rs lines 58-75): the
derived `partial_cmp` forwards to the float's `partial_cmp`; on `None`
(a NaN operand) NaN is greater, two NaNs are equal. -/
def OrderedFloat.cmp (a b : OrderedFloat) : Ordering :=
  match F64.cmpOpt a.val b.val with
  | some ordering => ordering
  | none =>
    if a.val.isNaN then
      if b.val.isNaN then Ordering.eq else Ordering.gt
    else Ordering.lt

/-- Embeds `PartialEq for OrderedFloat<T>::eq` (src/lib.rs lines 77-87):
two NaNs are equal, NaN equals nothing else, otherwise float `==`. -/
def OrderedFloat.beq (a b : OrderedFloat) : Bool :=
  if a.val.isNaN then
    if b.val.isNaN then true else false
  else if b.val.isNaN then false
  else F64.feq a.val b.val

/-- Embeds `f64::integer_decode` (as used by the `Float` bound from
`num_traits`): returns `(mantissa, exponent, sign)`, where the mantissa gets
the implicit leading bit (or a shift by one for the subnormal range), the
exponent is the field minus 1075, and the sign is `1` for positive, `-1` for
negative. -/
def F64.integer_decode (x : F64) : Nat × Int × Int :=
  ((if x.exp = 0 then x.man <<< 1 else x.man ||| 4503599627370496),
   (x.exp : Int) - 1075,
   if x.sign then -1 else 1)

/-- Bit pattern of an `f32`: sign bit, 8-bit exponent field, 23-bit mantissa
field. -/
structure F32 where
  sign : Bool
  exp : Nat
  man : Nat
deriving DecidableEq

/-- Field bounds of a genuine 32-bit pattern. -/
def F32.wf (x : F32) : Prop := x.exp < 256 ∧ x.man < 8388608

/-- Embeds `f32::is_nan`. -/
def F32.isNaN (x : F32) : Bool := x.exp == 255 && x.man != 0

/-- Embeds `f32::integer_decode`: exponent is the field minus 150, mantissa
gets the implicit bit `2^23`. -/
def F32.integer_decode (x : F32) : Nat × Int × Int :=
  ((if x.exp = 0 then x.man <<< 1 else x.man ||| 8388608),
   (x.exp : Int) - 150,
   if x.sign then -1 else 1)

/-- Capability bundle standing for the `Float` trait bound used by
`raw_double_bits<F: Float>`: a NaN test and `integer_decode`. -/
structure FloatRepr (α : Type) where
  is_nan : α → Bool
  integer_decode : α → Nat × Int × Int

/-- The `Float` capabilities of `f64`. -/
def F64.floatRepr : FloatRepr F64 := ⟨F64.isNaN, F64.integer_decode⟩

/-- The `Float` capabilities of `f32`. -/
def F32.floatRepr : FloatRepr F32 := ⟨F32.isNaN, F32.integer_decode⟩

/-- Embeds `raw_double_bits` (src/lib.rs lines 547-560): canonical NaN bits
for any NaN; canonical zero bits when the decoded mantissa is 0; otherwise
reassemble mantissa, exponent and sign under the fixed 64-bit masks.  The
`transmute::<i16, u16>` of the exponent is two's-complement reduction
modulo `2^16`; `sign_u64` is 1 exactly when the decoded sign is positive. -/
def raw_double_bits {α : Type} (fr : FloatRepr α) (f : α) : Nat :=
  if fr.is_nan f then CANONICAL_NAN_BITS
  else
    let man := (fr.integer_decode f).1
    let exp := (fr.integer_decode f).2.1
    let sign := (fr.integer_decode f).2.2
    if man = 0 then CANONICAL_ZERO_BITS
    else
      let exp_u64 : Nat := (exp % 65536).toNat
      let sign_u64 : Nat := if sign > 0 then 1 else 0
      (man &&& MAN_MASK) ||| ((exp_u64 <<< 52) &&& EXP_MASK) |||
        ((sign_u64 <<< 63) &&& SIGN_MASK)

/-- Embeds `Hash for OrderedFloat<T>` (src/lib.rs lines 89-98) composed with
`hash_float`: the value actually fed to the hasher is the canonical 64-bit
word (a deterministic `Hasher` yields equal hashes from equal words, so hash
equality is modelled as equality of these words).  A NaN hashes as the fixed
representative `T::nan()`. -/
def OrderedFloat.hashBits (a : OrderedFloat) : Nat :=
  if a.val.isNaN then raw_double_bits F64.floatRepr F64.nanValue
  else raw_double_bits F64.floatRepr a.val

/-- The `NotNaN<f64>` wrapper (src/lib.rs line 144).  The non-NaN invariant is
a contract, not type-enforced (the Rust struct literal can store any float),
so it appears as a hypothesis in theorems where it matters. -/
structure NotNaN where
  val : F64
deriving DecidableEq

/-- Embeds `Hash for NotNaN<T>` (src/lib.rs lines 188-192): the stored value's
canonical word, with no NaN special case. -/
def NotNaN.hashBits (a : NotNaN) : Nat := raw_double_bits F64.floatRepr a.val

/-- Embeds the derived `PartialEq for NotNaN<T>`: float `==` on the field. -/
def NotNaN.beq (a b : NotNaN) : Bool := F64.feq a.val b.val

/-- Embeds `f64` negation: flips the sign bit (exact and total in IEEE 754). -/
def fneg (x : F64) : F64 := ⟨!x.sign, x.exp, x.man⟩

/-- Modelled from the IEEE 754 semantics of the source's `+` on `f64`: the
special-value cases the standard fixes exactly (a NaN operand, infinite
operands) are given; a finite-plus-finite sum depends on rounding and is left
out (`none`) — no claim depends on a rounded result.  NaN results carry the
canonical quiet NaN pattern. -/
def fadd (a b : F64) : Option F64 :=
  if a.isNaN || b.isNaN then some F64.nanValue
  else if a.isInf && b.isInf then
    (if a.sign == b.sign then some a else some F64.nanValue)
  else if a.isInf then some a
  else if b.isInf then some b
  else none

/-- IEEE 754 subtraction is addition of the negation. -/
def fsub (a b : F64) : Option F64 := fadd a (fneg b)

/-- Modelled from the IEEE 754 semantics of `*` on `f64` (special-value cases
only; finite-by-finite products are left out): `0 * inf` is NaN, an infinite
operand gives a signed infinity, a zero operand gives a signed zero. -/
def fmul (a b : F64) : Option F64 :=
  if a.isNaN || b.isNaN then some F64.nanValue
  else if (a.isInf && b.isZero) || (a.isZero && b.isInf) then some F64.nanValue
  else if a.isInf || b.isInf then some ⟨xor a.sign b.sign, 2047, 0⟩
  else if a.isZero || b.isZero then some ⟨xor a.sign b.sign, 0, 0⟩
  else none

/-- Modelled from the IEEE 754 semantics of `/` on `f64` (special-value cases
only; finite-by-finite-nonzero quotients are left out): `0/0` and `inf/inf`
are NaN, otherwise an infinite dividend or zero divisor gives a signed
infinity, and an infinite divisor or zero dividend gives a signed zero. -/
def fdiv (a b : F64) : Option F64 :=
  if a.isNaN || b.isNaN then some F64.nanValue
  else if a.isInf && b.isInf then some F64.nanValue
  else if a.isZero && b.isZero then some F64.nanValue
  else if a.isInf then some ⟨xor a.sign b.sign, 2047, 0⟩
  else if b.isZero then some ⟨xor a.sign b.sign, 2047, 0⟩
  else if b.isInf then some ⟨xor a.sign b.sign, 0, 0⟩
  else if a.isZero then some ⟨xor a.sign b.sign, 0, 0⟩
  else none

/-- Modelled from the semantics of Rust's `%` on `f64` (C `fmod`; special
cases only): NaN when the dividend is infinite or the divisor is zero, the
dividend unchanged when the divisor is infinite or the dividend is zero. -/
def frem (a b : F64) : Option F64 :=
  if a.isNaN || b.isNaN then some F64.nanValue
  else if a.isInf || b.isZero then some F64.nanValue
  else if b.isInf then some a
  else if a.isZero then some a
  else none

/-- An `f32` infinity. -/
def F32.isInf (x : F32) : Bool := x.exp == 255 && x.man == 0

/-- An `f32` zero of either sign. -/
def F32.isZero (x : F32) : Bool := x.exp == 0 && x.man == 0

/-- The bit pattern of `f32::NAN`. -/
def F32.nanValue : F32 := ⟨false, 255, 4194304⟩

/-- Modelled from the IEEE 754 semantics of `*` on `f32` (special-value cases
only), mirroring `fmul`. -/
def fmul32 (a b : F32) : Option F32 :=
  if a.isNaN || b.isNaN then some F32.nanValue
  else if (a.isInf && b.isZero) || (a.isZero && b.isInf) then some F32.nanValue
  else if a.isInf || b.isInf then some ⟨xor a.sign b.sign, 255, 0⟩
  else if a.isZero || b.isZero then some ⟨xor a.sign b.sign, 0, 0⟩
  else none

/-- The construction error `FloatIsNaN` (src/lib.rs line 521): carries no
data. -/
inductive FloatIsNaN : Type where
  | mk : FloatIsNaN
deriving DecidableEq

/-- Embeds `NotNaN::new` (src/lib.rs lines 150-155): `Err(FloatIsNaN)` when
the input is NaN, else `Ok` of the wrapper holding the input. -/
def NotNaN.new (val : F64) : Except FloatIsNaN NotNaN :=
  if val.isNaN then Except.error FloatIsNaN.mk else Except.ok ⟨val⟩

/-- Embeds `From<T> for NotNaN<T>::from` (src/lib.rs lines 215-220): the
`assert!(!v.is_nan())` panic is modelled as `Except.error` with the panic
text of a bare `assert!`; a panic is non-recoverable, unlike the `Result`
of `NotNaN::new`. -/
def NotNaN.fromFloat (v : F64) : Except String NotNaN :=
  if v.isNaN then Except.error "assertion failed: !v.is_nan()" else Except.ok ⟨v⟩

/-- Embeds `NotNaN::new(r).expect(msg)`: panic with `msg` when `r` is NaN,
else the wrapper. -/
def expectNotNaN (msg : String) (r : F64) : Except String NotNaN :=
  if r.isNaN then Except.error msg else Except.ok ⟨r⟩

/-- Embeds `impl Add for NotNaN<T>` (wrapper + wrapper, src/lib.rs lines
232-238): literally `NotNaN(self.0 + other.0)` — no validation of the result.
The outer `Option` is only the model's partiality of `fadd`; the result type
contains no panic case at all. -/
def NotNaN.addSelf (a b : NotNaN) : Option (Except String NotNaN) :=
  (fadd a.val b.val).map (fun r => Except.ok ⟨r⟩)

/-- Embeds `impl Sub for NotNaN<T>` (src/lib.rs lines 288-294):
`NotNaN::new(self.0 - other.0).expect("Subtraction resulted in NaN")`. -/
def NotNaN.subSelf (a b : NotNaN) : Option (Except String NotNaN) :=
  (fsub a.val b.val).map (expectNotNaN "Subtraction resulted in NaN")

/-- Embeds `impl Mul for NotNaN<T>` (src/lib.rs lines 344-350). -/
def NotNaN.mulSelf (a b : NotNaN) : Option (Except String NotNaN) :=
  (fmul a.val b.val).map (expectNotNaN "Multiplication resulted in NaN")

/-- Embeds `impl Div for NotNaN<T>` (src/lib.rs lines 399-405):
`NotNaN::new(self.0 / other.0).expect("Division resulted in NaN")`. -/
def NotNaN.divSelf (a b : NotNaN) : Option (Except String NotNaN) :=
  (fdiv a.val b.val).map (expectNotNaN "Division resulted in NaN")

/-- Embeds `impl Rem for NotNaN<T>` (src/lib.rs lines 455-461). -/
def NotNaN.remSelf (a b : NotNaN) : Option (Except String NotNaN) :=
  (frem a.val b.val).map (expectNotNaN "Rem resulted in NaN")

/-- Embeds `impl Neg for NotNaN<T>` (src/lib.rs lines 511-517); negation is
total, so there is no outer `Option`. -/
def NotNaN.negSelf (a : NotNaN) : Except String NotNaN :=
  expectNotNaN "Negation resulted in NaN" (fneg a.val)

/-- Embeds `impl MulAssign<f64> for NotNaN<f64>` (src/lib.rs lines 381-386):
asserts the raw OPERAND is not NaN, multiplies in place — and, unlike every
sibling impl, does NOT check the result. -/
def NotNaN.mulAssignFloat (a : NotNaN) (x : F64) : Option (Except String NotNaN) :=
  if x.isNaN then some (Except.error "assertion failed: !other.is_nan()")
  else (fmul a.val x).map (fun r => Except.ok ⟨r⟩)

/-- The `NotNaN<f32>` wrapper. -/
structure NotNaN32 where
  val : F32
deriving DecidableEq

/-- Embeds `impl MulAssign<f32> for NotNaN<f32>` (src/lib.rs lines 391-397):
operand assert AND a result assert with "Multiplication resulted in NaN". -/
def NotNaN32.mulAssignFloat (a : NotNaN32) (x : F32) : Option (Except String NotNaN32) :=
  if x.isNaN then some (Except.error "assertion failed: !other.is_nan()")
  else (fmul32 a.val x).map (fun r =>
    if r.isNaN then Except.error "Multiplication resulted in NaN" else Except.ok ⟨r⟩)

/-- Embeds `Ord for NotNaN<T>::cmp` (src/lib.rs lines 179-186): the derived
`partial_cmp` compares the float fields; its `None` case falls into
`unsafe { unreachable() }`, modelled as `none`. -/
def NotNaN.cmp (a b : NotNaN) : Option Ordering := F64.cmpOpt a.val b.val

/-- Embeds the combinator every `FromPrimitive for NotNaN<T>` method uses
(src/lib.rs lines 582-596): `T::from_xxx(n).and_then(|n| NotNaN::new(n).ok())`,
with `conv` standing for the underlying primitive conversion `T::from_xxx`.
The result type has no panic component: every method is non-panicking by
construction. -/
def NotNaN.fromPrimitive {α : Type} (conv : α → Option F64) (n : α) : Option NotNaN :=
  (conv n).bind (fun x =>
    match NotNaN.new x with
    | Except.ok w => some w
    | Except.error _ => none)

theorem icmp_lt_iff (x y : Int) : icmp x y = Ordering.lt ↔ x < y := by
  unfold icmp
  split_ifs with h1 h2 <;> simp_all

theorem icmp_eq_iff (x y : Int) : icmp x y = Ordering.eq ↔ x = y := by
  unfold icmp
  split_ifs with h1 h2
  · simp_all
    omega
  · simp_all
  · simp_all

theorem cmp_spec (a b : OrderedFloat) :
    OrderedFloat.cmp a b =
      if a.val.isNaN then (if b.val.isNaN then Ordering.eq else Ordering.gt)
      else if b.val.isNaN then Ordering.lt
      else icmp a.val.orderKey b.val.orderKey := by
  unfold OrderedFloat.cmp F64.cmpOpt
  cases hA : a.val.isNaN <;> cases hB : b.val.isNaN <;> simp [hA, hB]

/-- C2: `OrderedFloat`'s comparison is a total order over all bit patterns,
NaN included: for all a, b exactly one of `cmp a b = lt / eq / gt` holds;
`lt` is transitive; two NaNs compare equal (under `cmp` and under `eq`);
a NaN compares strictly greater than every non-NaN value; and NaN < NaN
does not hold. -/
theorem C2_orderedFloat_total_order :
    (∀ a b : OrderedFloat,
      (OrderedFloat.cmp a b = Ordering.lt ∨ OrderedFloat.cmp a b = Ordering.eq ∨
        OrderedFloat.cmp a b = Ordering.gt) ∧
      ¬(OrderedFloat.cmp a b = Ordering.lt ∧ OrderedFloat.cmp a b = Ordering.eq) ∧
      ¬(OrderedFloat.cmp a b = Ordering.lt ∧ OrderedFloat.cmp a b = Ordering.gt) ∧
      ¬(OrderedFloat.cmp a b = Ordering.eq ∧ OrderedFloat.cmp a b = Ordering.gt)) ∧
    (∀ a b c : OrderedFloat, OrderedFloat.cmp a b = Ordering.lt →
      OrderedFloat.cmp b c = Ordering.lt → OrderedFloat.cmp a c = Ordering.lt) ∧
    (∀ a b : OrderedFloat, a.val.isNaN = true → b.val.isNaN = true →
      OrderedFloat.cmp a b = Ordering.eq ∧ OrderedFloat.beq a b = true) ∧
    (∀ a b : OrderedFloat, a.val.isNaN = true → b.val.isNaN = false →
      OrderedFloat.cmp a b = Ordering.gt) ∧
    (∀ a b : OrderedFloat, a.val.isNaN = true → b.val.isNaN = true →
      OrderedFloat.cmp a b ≠ Ordering.lt) := by
  refine ⟨?_, ?_, ?_, ?_, ?_⟩
  · intro a b
    rcases h : OrderedFloat.cmp a b <;> simp [h]
  · intro a b c hab hbc
    rw [cmp_spec] at hab hbc ⊢
    cases hA : a.val.isNaN <;> cases hB : b.val.isNaN <;> cases hC : c.val.isNaN <;>
      simp [hA, hB, hC] at hab hbc ⊢
    rw [icmp_lt_iff] at hab hbc ⊢
    omega
  · intro a b hA hB
    constructor
    · rw [cmp_spec]; simp [hA, hB]
    · unfold OrderedFloat.beq; simp [hA, hB]
  · intro a b hA hB
    rw [cmp_spec]; simp [hA, hB]
  · intro a b hA hB
    rw [cmp_spec]; simp [hA, hB]

/-- Witness for C2 at concrete inputs: 1.0 < 2.0 < 3.0 chains, and the NaN
clauses at the canonical NaN and at 2.0 (bit patterns spelled out). -/
theorem C2_orderedFloat_total_order_witness :
    OrderedFloat.cmp ⟨⟨false, 1023, 0⟩⟩ ⟨⟨false, 1025, 2251799813685248⟩⟩ = Ordering.lt ∧
    (OrderedFloat.cmp ⟨F64.nanValue⟩ ⟨F64.nanValue⟩ = Ordering.eq ∧
      OrderedFloat.beq ⟨F64.nanValue⟩ ⟨F64.nanValue⟩ = true) ∧
    OrderedFloat.cmp ⟨F64.nanValue⟩ ⟨⟨false, 1024, 0⟩⟩ = Ordering.gt ∧
    OrderedFloat.cmp ⟨F64.nanValue⟩ ⟨F64.nanValue⟩ ≠ Ordering.lt := by
  refine ⟨?_, ?_, ?_, ?_⟩
  · exact C2_orderedFloat_total_order.2.1 ⟨⟨false, 1023, 0⟩⟩ ⟨⟨false, 1024, 0⟩⟩
      ⟨⟨false, 1025, 2251799813685248⟩⟩ (by decide) (by decide)
  · exact C2_orderedFloat_total_order.2.2.1 ⟨F64.nanValue⟩ ⟨F64.nanValue⟩
      (by decide) (by decide)
  · exact C2_orderedFloat_total_order.2.2.2.1 ⟨F64.nanValue⟩ ⟨⟨false, 1024, 0⟩⟩
      (by decide) (by decide)
  · exact C2_orderedFloat_total_order.2.2.2.2 ⟨F64.nanValue⟩ ⟨F64.nanValue⟩
      (by decide) (by decide)

theorem raw_double_bits_zero (s : Bool) :
    raw_double_bits F64.floatRepr ⟨s, 0, 0⟩ = CANONICAL_ZERO_BITS := by
  cases s <;> rfl

/-- Two well-formed non-NaN patterns with the same order key (i.e. equal under
float `==`) have the same canonical word: they are bit-identical unless both
are zeros, and both zeros canonicalize to `CANONICAL_ZERO_BITS`. -/
theorem feq_raw_double_bits (a b : F64) (ha : a.wf) (hb : b.wf)
    (heq : F64.feq a b = true) :
    raw_double_bits F64.floatRepr a = raw_double_bits F64.floatRepr b := by
  obtain ⟨sa, ea, ma⟩ := a
  obtain ⟨sb, eb, mb⟩ := b
  obtain ⟨hea, hma⟩ := ha
  obtain ⟨heb, hmb⟩ := hb
  unfold F64.feq F64.orderKey at heq
  simp only [Bool.and_eq_true, Bool.not_eq_true', beq_iff_eq] at heq
  obtain ⟨⟨-, -⟩, hkey⟩ := heq
  simp only [F64.wf] at hea hma heb hmb
  cases sa <;> cases sb <;> simp only [if_true, if_false, Bool.false_eq_true] at hkey
  · have : ea = eb ∧ ma = mb := by omega
    obtain ⟨rfl, rfl⟩ := this
    rfl
  · have : ea = 0 ∧ ma = 0 ∧ eb = 0 ∧ mb = 0 := by omega
    obtain ⟨rfl, rfl, rfl, rfl⟩ := this
    rfl
  · have : ea = 0 ∧ ma = 0 ∧ eb = 0 ∧ mb = 0 := by omega
    obtain ⟨rfl, rfl, rfl, rfl⟩ := this
    rfl
  · have : ea = eb ∧ ma = mb := by omega
    obtain ⟨rfl, rfl⟩ := this
    rfl

/-- C3: for both wrappers, equality implies hash equality (hashes modelled as
the canonical words fed to the hasher); concretely `+0.0` and `-0.0` hash
identically in both wrappers, and any two NaN patterns hash identically in
`OrderedFloat`. -/
theorem C3_hash_eq_consistency :
    (∀ a b : OrderedFloat, a.val.wf → b.val.wf → OrderedFloat.beq a b = true →
      OrderedFloat.hashBits a = OrderedFloat.hashBits b) ∧
    (∀ a b : NotNaN, a.val.wf → b.val.wf → NotNaN.beq a b = true →
      NotNaN.hashBits a = NotNaN.hashBits b) ∧
    OrderedFloat.hashBits ⟨⟨false, 0, 0⟩⟩ = OrderedFloat.hashBits ⟨⟨true, 0, 0⟩⟩ ∧
    NotNaN.hashBits ⟨⟨false, 0, 0⟩⟩ = NotNaN.hashBits ⟨⟨true, 0, 0⟩⟩ ∧
    (∀ a b : OrderedFloat, a.val.isNaN = true → b.val.isNaN = true →
      OrderedFloat.hashBits a = OrderedFloat.hashBits b) := by
  refine ⟨?_, ?_, by decide, by decide, ?_⟩
  · intro a b ha hb heq
    unfold OrderedFloat.beq at heq
    unfold OrderedFloat.hashBits
    cases hA : a.val.isNaN <;> cases hB : b.val.isNaN <;>
      simp [hA, hB] at heq ⊢
    exact feq_raw_double_bits a.val b.val ha hb heq
  · intro a b ha hb heq
    exact feq_raw_double_bits a.val b.val ha hb heq
  · intro a b hA hB
    unfold OrderedFloat.hashBits
    simp [hA, hB]

/-- Witness for C3 at concrete inputs: 1.0 = 1.0 in both wrappers, and two
distinct NaN payloads in `OrderedFloat`. -/
theorem C3_hash_eq_consistency_witness :
    OrderedFloat.hashBits ⟨⟨false, 1023, 0⟩⟩ = OrderedFloat.hashBits ⟨⟨false, 1023, 0⟩⟩ ∧
    NotNaN.hashBits ⟨⟨false, 0, 0⟩⟩ = NotNaN.hashBits ⟨⟨true, 0, 0⟩⟩ ∧
    OrderedFloat.hashBits ⟨⟨true, 2047, 1⟩⟩ = OrderedFloat.hashBits ⟨F64.nanValue⟩ := by
  refine ⟨?_, ?_, ?_⟩
  · exact C3_hash_eq_consistency.1 ⟨⟨false, 1023, 0⟩⟩ ⟨⟨false, 1023, 0⟩⟩
      (by decide) (by decide) (by decide)
  · exact C3_hash_eq_consistency.2.1 ⟨⟨false, 0, 0⟩⟩ ⟨⟨true, 0, 0⟩⟩
      (by decide) (by decide) (by decide)
  · exact C3_hash_eq_consistency.2.2.2.2 ⟨⟨true, 2047, 1⟩⟩ ⟨F64.nanValue⟩
      (by decide) (by decide)

/-- C4: `raw_double_bits` on `f64` is total (a Lean function, defined on every
pattern) and: every NaN maps to the fixed constant `0x7ff8000000000000`; both
zeros (the inputs whose decoded mantissa is 0) map to the fixed constant 0;
every other input maps to its decoded mantissa, exponent and sign reassembled
under `MAN_MASK` / `EXP_MASK` / `SIGN_MASK` (the code sets the sign bit for
the POSITIVE decoded sign). -/
theorem C4_raw_double_bits_total (x : F64) (hwf : x.wf) :
    (x.isNaN = true → raw_double_bits F64.floatRepr x = 0x7ff8000000000000) ∧
    (x.isNaN = false → x.isZero = true → raw_double_bits F64.floatRepr x = 0) ∧
    (x.isNaN = false → x.isZero = false →
      raw_double_bits F64.floatRepr x =
        ((x.integer_decode.1 &&& MAN_MASK) |||
          ((((x.integer_decode.2.1 % 65536).toNat) <<< 52) &&& EXP_MASK) |||
          (((if x.sign then 0 else 1) <<< 63) &&& SIGN_MASK))) := by
  obtain ⟨s, e, m⟩ := x
  refine ⟨?_, ?_, ?_⟩
  · intro hnan
    unfold raw_double_bits
    simp [F64.floatRepr, hnan, CANONICAL_NAN_BITS]
  · intro hnan hzero
    unfold F64.isZero at hzero
    simp only [Bool.and_eq_true, beq_iff_eq] at hzero
    obtain ⟨rfl, rfl⟩ := hzero
    exact raw_double_bits_zero s
  · intro hnan hzero
    unfold F64.isNaN at hnan
    unfold F64.isZero at hzero
    simp only [Bool.and_eq_true, beq_iff_eq, bne_iff_ne, ne_eq, Bool.and_eq_false_iff,
      Bool.not_eq_true, beq_eq_false_iff_ne, bne_eq_false_iff_eq] at hnan hzero
    have hman : (F64.integer_decode ⟨s, e, m⟩).1 ≠ 0 := by
      unfold F64.integer_decode
      simp only
      split_ifs with he
      · subst he
        have hm : m ≠ 0 := by
          rcases hzero with h | h
        --
          · exact absurd rfl h
          · exact h
        simp [Nat.shiftLeft_eq]
        omega
      · intro hcon
        have ht := congrArg (fun n => Nat.testBit n 52) hcon
        simp [Nat.testBit_lor] at ht
        exact absurd ht.2 (by decide)
    unfold raw_double_bits
    rw [if_neg ?hn]
    case hn =>
      simp only [F64.floatRepr]
      unfold F64.isNaN
      simp only [Bool.and_eq_true, beq_iff_eq, bne_iff_ne, ne_eq, not_and]
      intro h1 h2
      rcases hnan with h | h
      · exact h h1
      · exact h2 h
    simp only [F64.floatRepr]
    rw [if_neg hman]
    have hsign : (0 : Int) < (F64.integer_decode ⟨s, e, m⟩).2.2 ↔ s = false := by
      unfold F64.integer_decode
      cases s <;> simp
    cases s <;> simp [F64.integer_decode]

/-- Witness for C4 at concrete inputs: a negative NaN with payload 1, negative
zero, and 1.0 (bit pattern sign 0, exponent field 1023, mantissa 0). -/
theorem C4_raw_double_bits_total_witness :
    raw_double_bits F64.floatRepr ⟨true, 2047, 1⟩ = 0x7ff8000000000000 ∧
    raw_double_bits F64.floatRepr ⟨true, 0, 0⟩ = 0 ∧
    raw_double_bits F64.floatRepr ⟨false, 1023, 0⟩ =
      (((F64.integer_decode ⟨false, 1023, 0⟩).1 &&& MAN_MASK) |||
        ((((F64.integer_decode ⟨false, 1023, 0⟩).2.1 % 65536).toNat <<< 52) &&& EXP_MASK) |||
        ((1 <<< 63) &&& SIGN_MASK)) := by
  refine ⟨?_, ?_, ?_⟩
  · exact (C4_raw_double_bits_total ⟨true, 2047, 1⟩ (by decide)).1 (by decide)
  · exact (C4_raw_double_bits_total ⟨true, 0, 0⟩ (by decide)).2.1 (by decide) (by decide)
  · exact (C4_raw_double_bits_total ⟨false, 1023, 0⟩ (by decide)).2.2 (by decide) (by decide)

/-- C5 counterexample: 1.0 is exactly representable at both widths (f32
pattern: sign 0, exponent field 127 = bias, mantissa 0; f64 pattern: sign 0,
exponent field 1023 = bias, mantissa 0), yet the two canonicalizations
produce different 64-bit words, refuting cross-width consistency as claimed. -/
theorem C5_cross_width_counterexample :
    raw_double_bits F32.floatRepr ⟨false, 127, 0⟩ ≠
      raw_double_bits F64.floatRepr ⟨false, 1023, 0⟩ := by
  decide

/-- C5 amended: the canonicalization is NOT cross-width consistent for general
shared values — `integer_decode` biases the exponent differently per width
(by 150 for f32, by 1075 for f64) and the words differ already at 1.0.  The
two widths do agree exactly on the two canonicalized classes: every NaN of
either width maps to the same fixed constant, and every zero of either width
maps to the same fixed constant. -/
theorem C5_cross_width_nan_zero_only (x32 : F32) (x64 : F64) :
    (x32.isNaN = true → x64.isNaN = true →
      raw_double_bits F32.floatRepr x32 = raw_double_bits F64.floatRepr x64) ∧
    (∀ s t : Bool, raw_double_bits F32.floatRepr ⟨s, 0, 0⟩ =
      raw_double_bits F64.floatRepr ⟨t, 0, 0⟩) ∧
    raw_double_bits F32.floatRepr ⟨false, 127, 0⟩ ≠
      raw_double_bits F64.floatRepr ⟨false, 1023, 0⟩ := by
  refine ⟨?_, ?_, by decide⟩
  · intro h32 h64
    unfold raw_double_bits
    simp [F32.floatRepr, F64.floatRepr, h32, h64]
  · intro s t
    cases s <;> cases t <;> decide

/-- Witness for C5's amended theorem: the NaN clause at the canonical quiet
NaNs of each width. -/
theorem C5_cross_width_nan_zero_only_witness :
    raw_double_bits F32.floatRepr ⟨false, 255, 4194304⟩ =
      raw_double_bits F64.floatRepr F64.nanValue := by
  exact (C5_cross_width_nan_zero_only ⟨false, 255, 4194304⟩ F64.nanValue).1
    (by decide) (by decide)

/-- C1: evaluation of the code at the failing inputs.  The claim says every
arithmetic operation validates its result and panics on NaN, but the
wrapper-to-wrapper `Add` (src/lib.rs lines 232-238) is literally
`NotNaN(self.0 + other.0)` with no check: `NotNaN(+inf) + NotNaN(-inf)`
returns a wrapper holding NaN (first two conjuncts), breaking the type's own
documented invariant ("A NaN value cannot be stored in this type").
Likewise `MulAssign<f64>` (lines 381-386) asserts only the operand:
`NotNaN(+inf) *= 0.0` stores NaN without panicking (third conjunct), while
the parallel `MulAssign<f32>` instance does panic on the same inputs (fourth
conjunct) and the sibling wrapper-to-wrapper `Sub` panics with its
operation-specific message (fifth conjunct). -/
theorem C1_unchecked_add_and_mul_assign :
    NotNaN.addSelf ⟨F64.posInf⟩ ⟨F64.negInf⟩ = some (Except.ok ⟨F64.nanValue⟩) ∧
    F64.nanValue.isNaN = true ∧
    NotNaN.mulAssignFloat ⟨F64.posInf⟩ ⟨false, 0, 0⟩ = some (Except.ok ⟨F64.nanValue⟩) ∧
    NotNaN32.mulAssignFloat ⟨⟨false, 255, 0⟩⟩ ⟨false, 0, 0⟩ =
      some (Except.error "Multiplication resulted in NaN") ∧
    NotNaN.subSelf ⟨F64.posInf⟩ ⟨F64.posInf⟩ =
      some (Except.error "Subtraction resulted in NaN") := by
  refine ⟨rfl, rfl, rfl, rfl, rfl⟩

/-- C6: `NotNaN::new` fails with `FloatIsNaN` exactly on NaN inputs — every
NaN bit pattern (any sign bit, any nonzero payload) — and otherwise returns
the wrapper holding exactly the input value. -/
theorem C6_notnan_new_iff (v : F64) :
    (NotNaN.new v = Except.error FloatIsNaN.mk ↔ v.isNaN = true) ∧
    (v.isNaN = false → NotNaN.new v = Except.ok ⟨v⟩) := by
  unfold NotNaN.new
  constructor
  · constructor
    · intro h
      by_contra hc
      rw [Bool.not_eq_true] at hc
      simp [hc] at h
    · intro h
      simp [h]
  · intro h
    simp [h]

/-- Witness for C6: a signaling NaN (payload 1), a negative quiet NaN, and a
non-NaN input (1.0). -/
theorem C6_notnan_new_iff_witness :
    NotNaN.new ⟨false, 2047, 1⟩ = Except.error FloatIsNaN.mk ∧
    NotNaN.new ⟨true, 2047, 2251799813685248⟩ = Except.error FloatIsNaN.mk ∧
    NotNaN.new ⟨false, 1023, 0⟩ = Except.ok ⟨⟨false, 1023, 0⟩⟩ := by
  refine ⟨?_, ?_, ?_⟩
  · exact (C6_notnan_new_iff ⟨false, 2047, 1⟩).1.mpr (by decide)
  · exact (C6_notnan_new_iff ⟨true, 2047, 2251799813685248⟩).1.mpr (by decide)
  · exact (C6_notnan_new_iff ⟨false, 1023, 0⟩).2 (by decide)

/-- C7: the `From<T>` conversion halts non-recoverably (panics) exactly on
NaN input, and returns the wrapper holding the input for every non-NaN
input. -/
theorem C7_from_panics_on_nan (v : F64) :
    (v.isNaN = true →
      NotNaN.fromFloat v = Except.error "assertion failed: !v.is_nan()") ∧
    (v.isNaN = false → NotNaN.fromFloat v = Except.ok ⟨v⟩) := by
  unfold NotNaN.fromFloat
  constructor
  · intro h
    simp [h]
  · intro h
    simp [h]

/-- Witness for C7: the canonical NaN panics; 1.0 converts. -/
theorem C7_from_panics_on_nan_witness :
    NotNaN.fromFloat F64.nanValue = Except.error "assertion failed: !v.is_nan()" ∧
    NotNaN.fromFloat ⟨false, 1023, 0⟩ = Except.ok ⟨⟨false, 1023, 0⟩⟩ := by
  refine ⟨?_, ?_⟩
  · exact (C7_from_panics_on_nan F64.nanValue).1 (by decide)
  · exact (C7_from_panics_on_nan ⟨false, 1023, 0⟩).2 (by decide)

/-- C8: dividing a non-NaN wrapper by a wrapper holding zero (either sign)
panics with "Division resulted in NaN" exactly when the dividend is itself
zero; for every nonzero dividend it succeeds and returns the wrapper holding
the correctly signed infinity. -/
theorem C8_div_by_zero (a b : NotNaN) (ha : a.val.isNaN = false)
    (hb : b.val.isZero = true) :
    (a.val.isZero = true →
      NotNaN.divSelf a b = some (Except.error "Division resulted in NaN")) ∧
    (a.val.isZero = false →
      NotNaN.divSelf a b = some (Except.ok ⟨⟨xor a.val.sign b.val.sign, 2047, 0⟩⟩)) := by
  obtain ⟨⟨sa, ea, ma⟩⟩ := a
  obtain ⟨⟨sb, eb, mb⟩⟩ := b
  unfold F64.isZero at hb
  simp only [Bool.and_eq_true, beq_iff_eq] at hb
  obtain ⟨rfl, rfl⟩ := hb
  constructor
  · intro hz
    unfold F64.isZero at hz
    simp only [Bool.and_eq_true, beq_iff_eq] at hz
    obtain ⟨rfl, rfl⟩ := hz
    rfl
  · intro hz
    have hbn : F64.isNaN ⟨sb, 0, 0⟩ = false := rfl
    have hbi : F64.isInf ⟨sb, 0, 0⟩ = false := rfl
    have hbz : F64.isZero ⟨sb, 0, 0⟩ = true := rfl
    have hrn : F64.isNaN ⟨xor sa sb, 2047, 0⟩ = false := rfl
    by_cases hea : ea = 2047
    · have hma : ma = 0 := by
        unfold F64.isNaN at ha
        subst hea
        simpa using ha
      subst hea
      subst hma
      have hai : F64.isInf ⟨sa, 2047, 0⟩ = true := rfl
      have haz : F64.isZero ⟨sa, 2047, 0⟩ = false := rfl
      simp [NotNaN.divSelf, fdiv, expectNotNaN, ha, hbn, hai, hbi, haz, hbz, hrn]
    · have hai : F64.isInf ⟨sa, ea, ma⟩ = false := by
        unfold F64.isInf
        simp [hea]
      simp [NotNaN.divSelf, fdiv, expectNotNaN, ha, hz, hbn, hai, hbi, hbz, hrn]

/-- Witness for C8: `0.0 / 0.0` panics; `1.0 / 0.0` gives `+inf`;
`1.0 / -0.0` gives `-inf`. -/
theorem C8_div_by_zero_witness :
    NotNaN.divSelf ⟨⟨false, 0, 0⟩⟩ ⟨⟨false, 0, 0⟩⟩ =
      some (Except.error "Division resulted in NaN") ∧
    NotNaN.divSelf ⟨⟨false, 1023, 0⟩⟩ ⟨⟨false, 0, 0⟩⟩ =
      some (Except.ok ⟨F64.posInf⟩) ∧
    NotNaN.divSelf ⟨⟨false, 1023, 0⟩⟩ ⟨⟨true, 0, 0⟩⟩ =
      some (Except.ok ⟨F64.negInf⟩) := by
  refine ⟨?_, ?_, ?_⟩
  · exact (C8_div_by_zero ⟨⟨false, 0, 0⟩⟩ ⟨⟨false, 0, 0⟩⟩ (by decide) (by decide)).1
      (by decide)
  · exact (C8_div_by_zero ⟨⟨false, 1023, 0⟩⟩ ⟨⟨false, 0, 0⟩⟩ (by decide) (by decide)).2
      (by decide)
  · exact (C8_div_by_zero ⟨⟨false, 1023, 0⟩⟩ ⟨⟨true, 0, 0⟩⟩ (by decide) (by decide)).2
      (by decide)

/-- C9: under the non-NaN invariant the derived partial comparison of
`NotNaN` is always defined, so `cmp` never reaches the
`unsafe { unreachable() }` branch: it returns `some` of the numeric
comparison for all invariant-respecting operands. -/
theorem C9_notnan_cmp_total (a b : NotNaN) (ha : a.val.isNaN = false)
    (hb : b.val.isNaN = false) :
    NotNaN.cmp a b = some (icmp a.val.orderKey b.val.orderKey) := by
  unfold NotNaN.cmp F64.cmpOpt
  simp [ha, hb]

/-- Witness for C9: comparing 1.0 and 2.0. -/
theorem C9_notnan_cmp_total_witness :
    NotNaN.cmp ⟨⟨false, 1023, 0⟩⟩ ⟨⟨false, 1024, 0⟩⟩ =
      some (icmp (F64.orderKey ⟨false, 1023, 0⟩) (F64.orderKey ⟨false, 1024, 0⟩)) := by
  exact C9_notnan_cmp_total ⟨⟨false, 1023, 0⟩⟩ ⟨⟨false, 1024, 0⟩⟩ (by decide) (by decide)

/-- C10: the combinator every `FromPrimitive` method instantiates never
panics (its result type has no panic component) and never produces a
NaN-holding wrapper: a failed primitive conversion or a NaN conversion
result yields `none`; otherwise the result is `some` of the wrapper holding
the converted value. -/
theorem C10_from_primitive_safe {α : Type} (conv : α → Option F64) (n : α) :
    (conv n = none → NotNaN.fromPrimitive conv n = none) ∧
    (∀ x : F64, conv n = some x → x.isNaN = true →
      NotNaN.fromPrimitive conv n = none) ∧
    (∀ x : F64, conv n = some x → x.isNaN = false →
      NotNaN.fromPrimitive conv n = some ⟨x⟩) ∧
    (∀ w : NotNaN, NotNaN.fromPrimitive conv n = some w → w.val.isNaN = false) := by
  refine ⟨?_, ?_, ?_, ?_⟩
  · intro h
    unfold NotNaN.fromPrimitive
    rw [h]
    rfl
  · intro x hx hnan
    unfold NotNaN.fromPrimitive NotNaN.new
    rw [hx]
    simp [hnan]
  · intro x hx hnan
    unfold NotNaN.fromPrimitive NotNaN.new
    rw [hx]
    simp [hnan]
  · intro w hw
    unfold NotNaN.fromPrimitive NotNaN.new at hw
    cases hc : conv n with
    | none =>
      rw [hc] at hw
      simp at hw
    | some x =>
      rw [hc] at hw
      cases hx : x.isNaN with
      | true =>
        simp [hx] at hw
      | false =>
        simp [hx] at hw
        rw [← hw]
        exact hx

/-- Witness for C10: an undefined conversion, a NaN-producing conversion and
a 1.0-producing conversion, each at the unit input. -/
theorem C10_from_primitive_safe_witness :
    NotNaN.fromPrimitive (fun _ : Unit => (none : Option F64)) () = none ∧
    NotNaN.fromPrimitive (fun _ : Unit => some F64.nanValue) () = none ∧
    NotNaN.fromPrimitive (fun _ : Unit => some ⟨false, 1023, 0⟩) () =
      some ⟨⟨false, 1023, 0⟩⟩ := by
  refine ⟨?_, ?_, ?_⟩
  · exact (C10_from_primitive_safe (fun _ : Unit => none) ()).1 rfl
  · exact (C10_from_primitive_safe (fun _ : Unit => some F64.nanValue) ()).2.1
      F64.nanValue rfl (by decide)
  · exact (C10_from_primitive_safe (fun _ : Unit => some ⟨false, 1023, 0⟩) ()).2.2.1
      ⟨false, 1023, 0⟩ rfl (by decide)
